import Mathlib

/-!
Shallow embedding of the user/role administration service layer
(roleService.getAllRoles and userService.createUser/getAllUsers/
getUserByUsername/getUserById/updateUser/softDeleteUser/verifyUser),
together with proofs checking the natural-language specification
against this embedding.

The document store (MongoDB via Mongoose) is modelled as an in-memory
list of records; store queries (`find`, `findOne`, `findById`,
`findByIdAndUpdate`, `findOneAndUpdate`, `countDocuments`, sorting,
skip/limit, `populate`) are translated into pure list operations.
Store mutation is explicit state passing: mutating operations return
the new store alongside their result.
-/

set_option maxHeartbeats 1000000

/-- Model of a JavaScript primitive value, used where the source code
receives dynamically-typed input (payload fields, update objects).
JavaScript `undefined` and `null` are both modelled by `JVal.null`
(everywhere the embedded code touches them their behaviour coincides:
both are falsy and neither has `typeof` equal to `boolean`);
an absent object property is modelled as an absent map entry. -/
inductive JVal where
  | str (s : String)
  | num (n : Int)
  | bool (b : Bool)
  | null
deriving DecidableEq, Repr

/-- JavaScript truthiness of a `JVal`: empty string, zero, `false` and
`null`/`undefined` are falsy, everything else is truthy. -/
def JVal.truthy : JVal → Bool
  | .str s => !(s == "")
  | .num n => !(n == 0)
  | .bool b => b
  | .null => false

/-- JavaScript `String(v)` conversion on the modelled values. -/
def jsToString : JVal → String
  | .str s => s
  | .num n => toString n
  | .bool b => if b then "true" else "false"
  | .null => "null"

/-- Truthiness of an optional string argument (the service receives
query-string parameters, each either absent/undefined or a string;
the only falsy string is the empty one). -/
def truthy : Option String → Bool
  | none => false
  | some s => !(s == "")

/-- Longest digit run at the head of the character list, parsed as a
natural number; `none` when there is no leading digit (parseInt NaN). -/
def parseDigits (cs : List Char) : Option Nat :=
  let ds := cs.takeWhile Char.isDigit
  if ds.isEmpty then none
  else some (ds.foldl (fun acc c => acc * 10 + (c.toNat - 48)) 0)

/-- Model of JavaScript `parseInt(s, 10)`: skip leading whitespace,
accept an optional sign, then parse the longest digit run; `none`
models the NaN result. -/
def parseIntJS (s : String) : Option Int :=
  let cs := s.toList.dropWhile (fun c => c == ' ' || c == '\t' || c == '\n' || c == '\r')
  match cs with
  | '-' :: rest => (parseDigits rest).map (fun n => -(n : Int))
  | '+' :: rest => (parseDigits rest).map (fun n => (n : Int))
  | _ => (parseDigits cs).map (fun n => (n : Int))

/-- The source helper `toInt(v, def)`: `parseInt(v, 10)`, falling back
to the default when the result is NaN or not positive.  An absent
argument (`undefined`) stringifies to a non-numeric value, hence also
falls back to the default. -/
def toInt (v : Option String) (d : Nat) : Nat :=
  match v with
  | none => d
  | some s =>
    match parseIntJS s with
    | none => d
    | some n => if n ≤ 0 then d else n.toNat

/-- Model of `mongoose.isValidObjectId` on string input: a 24-character
hexadecimal string.  (The real check also accepts 12-byte buffers and
ObjectId instances, which do not arise over the JSON/string boundary
modelled here.) -/
def isHexChar (c : Char) : Bool :=
  c.isDigit || ('a' ≤ c && c ≤ 'f') || ('A' ≤ c && c ≤ 'F')

/-- Validity of an ObjectId-shaped string. -/
def isValidObjectId (s : String) : Bool :=
  s.length == 24 && s.toList.all isHexChar

/-- Hexadecimal digit character for a value below 16. -/
def hexChar (n : Nat) : Char :=
  if n < 10 then Char.ofNat (48 + n) else Char.ofNat (87 + n)

/-- Model of store-side ObjectId generation: a 24-hex-digit string
derived from the store's monotone counter. -/
def genId (n : Nat) : String :=
  String.mk ((List.range 24).map (fun i => hexChar (n / 16 ^ (23 - i) % 16)))

/-- Whitespace test for the string-trimming model. -/
def isWsJS (c : Char) : Bool :=
  c == ' ' || c == '\t' || c == '\n' || c == '\r'

/-- Model of the JavaScript string trim operation: strip leading and
trailing whitespace.  (Implemented structurally over the character
list so that it evaluates by kernel reduction.) -/
def trimJS (s : String) : String :=
  String.mk (((s.toList.dropWhile isWsJS).reverse.dropWhile isWsJS).reverse)

/-- Model of `bcrypt.hash(s, cost)`.  The hashing primitive is external
and treated by the specification as an opaque one-way function; no
claim depends on the hash value, only on the fact that the stored
password is the hash of the plaintext, so a definite placeholder
encoding is used. -/
def bcryptHash (s : String) (cost : Nat) : String :=
  "$2b$" ++ toString cost ++ "$" ++ s

/-- Lowercasing of a string, character by character (JavaScript
`toLowerCase` restricted to basic latin, matching the `i` regex flag's
effect on this fragment; implemented structurally so that it evaluates
by kernel reduction). -/
def toLowerJS (s : String) : String :=
  String.mk (s.toList.map Char.toLower)

/-- Single-character step of the regex matcher: in the modelled
fragment a pattern character is either the metacharacter `.` (matching
any character except a line terminator, per ECMAScript) or a literal
character. -/
def charMatchRe (p c : Char) : Bool :=
  (p == '.' && !(c == '\n' || c == '\r' || c == Char.ofNat 0x2028 || c == Char.ofNat 0x2029))
  || p == c

/-- Anchored match of a pattern (list of pattern characters) at the
head of the subject. -/
def matchHere : List Char → List Char → Bool
  | [], _ => true
  | _ :: _, [] => false
  | p :: ps, c :: cs => charMatchRe p c && matchHere ps cs

/-- Unanchored regex search: try to match at every position of the
subject, as ECMAScript `RegExp.test` does for an unanchored pattern. -/
def matchFrom (p : List Char) : List Char → Bool
  | [] => matchHere p []
  | c :: cs => matchHere p (c :: cs) || matchFrom p cs

/-- Model of the store's `{ $regex: pat, $options: 'i' }` test,
restricted to the literal-and-dot fragment of ECMAScript regular
expressions (other metacharacters, which never occur in the statements
proved below, are treated as literals by this model).  The
case-insensitive option is modelled by lowercasing both sides. -/
def regexTestI (pat s : String) : Bool :=
  matchFrom (toLowerJS pat).toList (toLowerJS s).toList

/-- Characters that are metacharacters of ECMAScript regular
expressions; a filter string free of them is matched literally. -/
def metaFreeChar (c : Char) : Bool :=
  !(c == '.' || c == '*' || c == '+' || c == '?' || c == '^' || c == '$'
    || c == '(' || c == ')' || c == '[' || c == ']'
    || c == Char.ofNat 123 || c == Char.ofNat 125 || c == '|' || c == '\\')

/-- Role document as stored: `models/Role` schema fields. -/
structure Role where
  _id : String
  name : String
  isDelete : Bool
  createdAt : Nat
deriving DecidableEq, Repr

/-- User document as stored: `models/User` schema fields.  The
`password` field is optional because `delete obj.password` can remove
it from plain objects derived from a document; stored documents always
carry `some` hash. -/
structure User where
  _id : String
  username : String
  password : Option String
  email : String
  fullName : String
  avatarUrl : String
  role : Option String
  status : Bool
  isDelete : Bool
  createdAt : Nat
deriving DecidableEq, Repr

/-- Shape of the `role` field of a user object returned across the
service boundary: either the raw referenced id (no `populate`, as in
`createUser`'s `toObject`) or the populated `{_id, name}` projection. -/
inductive RoleRef where
  | raw (id : String)
  | resolved (id : String) (name : String)
deriving DecidableEq, Repr

/-- Plain user object as returned across the service boundary
(after `toObject()`/`lean()`, possibly `populate('role','name')`,
and possibly `delete obj.password`). -/
structure UserOut where
  _id : String
  username : String
  password : Option String
  email : String
  fullName : String
  avatarUrl : String
  role : Option RoleRef
  status : Bool
  isDelete : Bool
  createdAt : Nat
deriving DecidableEq, Repr

/-- The document store: the two collections plus a monotone counter
used for id generation and `createdAt` timestamps. -/
structure DB where
  users : List User
  roles : List Role
  nextId : Nat
deriving DecidableEq, Repr

/-- Result of a listing operation: either a bare ordered sequence or
the pagination envelope `{items, total, page, limit, pages}`. -/
inductive ListResult (α : Type) where
  | plain (items : List α)
  | paged (items : List α) (total page limit pages : Nat)
deriving DecidableEq, Repr

/-- Items carried by a listing result, in either shape. -/
def ListResult.itemsOf : ListResult α → List α
  | .plain items => items
  | .paged items _ _ _ _ => items

/-- Whether a listing result is the pagination envelope. -/
def ListResult.isPaged : ListResult α → Bool
  | .plain _ => false
  | .paged _ _ _ _ _ => true

/-- Page number of an envelope (0 for a bare sequence). -/
def ListResult.pageOf : ListResult α → Nat
  | .plain _ => 0
  | .paged _ _ p _ _ => p

/-- Limit of an envelope (0 for a bare sequence). -/
def ListResult.limitOf : ListResult α → Nat
  | .plain _ => 0
  | .paged _ _ _ l _ => l

/-- Total of an envelope (0 for a bare sequence). -/
def ListResult.totalOf : ListResult α → Nat
  | .plain _ => 0
  | .paged _ t _ _ _ => t

/-- Page count of an envelope (0 for a bare sequence). -/
def ListResult.pagesOf : ListResult α → Nat
  | .plain _ => 0
  | .paged _ _ _ _ g => g

/-- Service-layer error: a message plus the optional `err.status`
code attached by the source before throwing. -/
structure SvcError where
  message : String
  status : Option Nat
deriving DecidableEq, Repr

/-- Insertion step of sorting by a numeric key in decreasing order. -/
def insertDesc (key : α → Nat) (x : α) : List α → List α
  | [] => [x]
  | y :: ys => if key y < key x then x :: y :: ys else y :: insertDesc key x ys

/-- Model of the store's `sort({createdAt: -1})`: stable sort by the
key, largest (newest) first. -/
def sortDesc (key : α → Nat) : List α → List α
  | [] => []
  | x :: xs => insertDesc key x (sortDesc key xs)

/-- Window selected by `skip((page-1)*limit).limit(limit)`. -/
def pageWindow (p l : Nat) (xs : List α) : List α :=
  (xs.drop ((p - 1) * l)).take l

/-- Natural-number rendering of `Math.ceil(total / l)` for `l > 0`. -/
def ceilDivNat (t l : Nat) : Nat :=
  (t + l - 1) / l

/-- Query predicate built by `getAllRoles`: default exclusion of
soft-deleted roles unless `includeDeleted` is truthy and not the
string `"false"`, and an optional case-insensitive name regex. -/
def roleQuery (name includeDeleted : Option String) (r : Role) : Bool :=
  (if !truthy includeDeleted || includeDeleted == some "false" then !r.isDelete else true)
  && (if truthy name then regexTestI (name.getD "") r.name else true)

/-- Pagination envelope branch of `getAllRoles`, applied after `page`
and `limit` have been normalised by `toInt`. -/
def rolesPagedResult (matched : List Role) (p l : Nat) : ListResult Role :=
  .paged (pageWindow p l matched) matched.length p l (ceilDivNat matched.length l)

/-- The service operation `roleService.getAllRoles`. -/
def getAllRoles (db : DB) (name includeDeleted page limit : Option String) : ListResult Role :=
  let matched := sortDesc Role.createdAt (db.roles.filter (roleQuery name includeDeleted))
  if truthy page || truthy limit then
    rolesPagedResult matched (toInt page 1) (toInt limit 10)
  else
    .plain matched

/-- Conversion of a stored user document to a plain object with the
role reference left raw (`doc.toObject()` without `populate`). -/
def toObject (u : User) : UserOut :=
  { _id := u._id, username := u.username, password := u.password,
    email := u.email, fullName := u.fullName, avatarUrl := u.avatarUrl,
    role := u.role.map RoleRef.raw,
    status := u.status, isDelete := u.isDelete, createdAt := u.createdAt }

/-- Conversion of a stored user document with `populate('role','name')`
applied: the role reference is resolved to the `{_id, name}` projection
of the referenced role, or null when the reference is absent or
dangling. -/
def populate (roles : List Role) (u : User) : UserOut :=
  { _id := u._id, username := u.username, password := u.password,
    email := u.email, fullName := u.fullName, avatarUrl := u.avatarUrl,
    role := u.role.bind (fun rid =>
      (roles.find? (fun r => r._id == rid)).map (fun r => RoleRef.resolved r._id r.name)),
    status := u.status, isDelete := u.isDelete, createdAt := u.createdAt }

/-- The `delete obj.password` step applied to every user object before
it crosses the service boundary. -/
def sanitize (o : UserOut) : UserOut :=
  { o with password := none }

/-- Payload accepted by `createUser`.  The required string fields model
JavaScript falsiness by the empty string; `fullName`/`avatarUrl` use
the destructuring default `''` when absent; `status` is kept as a raw
JavaScript value because the source inspects its `typeof`. -/
structure CreatePayload where
  username : String := ""
  password : String := ""
  email : String := ""
  fullName : Option String := none
  avatarUrl : Option String := none
  role : Option String := none
  status : JVal := .null
deriving DecidableEq, Repr

/-- Role-reference validation shared by `createUser`: a truthy role
must be a syntactically valid ObjectId naming an existing role; the
stored reference is the found document's `_id`. -/
def resolveRole (db : DB) (role : Option String) : Except SvcError (Option String) :=
  match role with
  | none => .ok none
  | some r =>
    if !(r == "") then
      if isValidObjectId r then
        match db.roles.find? (fun rd => rd._id == r) with
        | some rd => .ok (some rd._id)
        | none => .error { message := "Role not found", status := some 404 }
      else .error { message := "Invalid role id", status := some 400 }
    else .ok none

/-- The service operation `userService.createUser`. The store-side
uniqueness check models the collection's unique indexes on `username`
and `email` (declared in the schema, which is external to the service
file): an insert colliding on either field fails with the duplicate-key
error that the source translates into a 409 conflict naming the field. -/
def createUser (db : DB) (p : CreatePayload) : Except SvcError (UserOut × DB) :=
  if p.username == "" || p.password == "" || p.email == "" then
    .error { message := "username, password, and email are required", status := some 400 }
  else
    match resolveRole db p.role with
    | .error e => .error e
    | .ok roleId =>
      let hashed := bcryptHash p.password 10
      let uname := trimJS p.username
      let em := trimJS p.email
      if db.users.any (fun v => v.username == uname) then
        .error { message := "username must be unique", status := some 409 }
      else if db.users.any (fun v => v.email == em) then
        .error { message := "email must be unique", status := some 409 }
      else
        let u : User :=
          { _id := genId db.nextId, username := uname, password := some hashed,
            email := em, fullName := p.fullName.getD "", avatarUrl := p.avatarUrl.getD "",
            role := roleId,
            status := match p.status with | .bool b => b | _ => false,
            isDelete := false, createdAt := db.nextId }
        .ok (sanitize (toObject u), { db with users := db.users ++ [u], nextId := db.nextId + 1 })

/-- Query predicate built by `getAllUsers`: unconditional exclusion of
soft-deleted users plus optional case-insensitive regex filters on
`username` and `fullName`. -/
def usersQuery (username fullName : Option String) (u : User) : Bool :=
  !u.isDelete
  && (if truthy username then regexTestI (username.getD "") u.username else true)
  && (if truthy fullName then regexTestI (fullName.getD "") u.fullName else true)

/-- Pagination envelope branch of `getAllUsers`, applied after `page`
and `limit` have been normalised by `toInt`; items are populated and
sanitized. -/
def usersPagedResult (roles : List Role) (matched : List User) (p l : Nat) : ListResult UserOut :=
  .paged ((pageWindow p l matched).map (fun u => sanitize (populate roles u)))
    matched.length p l (ceilDivNat matched.length l)

/-- The service operation `userService.getAllUsers`. -/
def getAllUsers (db : DB) (page limit username fullName : Option String) : ListResult UserOut :=
  let matched := sortDesc User.createdAt (db.users.filter (usersQuery username fullName))
  if truthy page || truthy limit then
    usersPagedResult db.roles matched (toInt page 1) (toInt limit 10)
  else
    .plain (matched.map (fun u => sanitize (populate db.roles u)))

/-- The service operation `userService.getUserByUsername`. -/
def getUserByUsername (db : DB) (username : String) : Option UserOut :=
  if username == "" then none
  else
    (db.users.find? (fun u => u.username == username && !u.isDelete)).map
      (fun u => sanitize (populate db.roles u))

/-- The service operation `userService.getUserById`.  Note the lookup
is by id only, with no `isDelete` condition. -/
def getUserById (db : DB) (id : String) : Option UserOut :=
  if !isValidObjectId id then none
  else
    (db.users.find? (fun u => u._id == id)).map
      (fun u => sanitize (populate db.roles u))

/-- Update object passed to `updateUser`: a JavaScript object modelled
as a key/value map (a property whose value is `undefined` is modelled
as absent, matching the source's `!== undefined` test). -/
abbrev Updates := List (String × JVal)

/-- The fixed allow-list of updatable fields, in source order. -/
def allowedFields : List String :=
  ["fullName", "avatarUrl", "status", "role", "email", "username", "password"]

/-- The `toSet` object: the restriction of the update object to the
allow-list, in allow-list order. -/
def toSetOf (updates : Updates) : Updates :=
  allowedFields.filterMap (fun k => (updates.lookup k).map (fun v => (k, v)))

/-- In-place replacement of the value at a key of an update map. -/
def setEntry (l : Updates) (k : String) (v : JVal) : Updates :=
  l.map (fun e => if e.1 == k then (k, v) else e)

/-- Role validation step of `updateUser`: when `toSet.role` is truthy
it must be a valid ObjectId naming an existing role and is replaced by
the found document's `_id`. -/
def roleStep (db : DB) (toSet : Updates) : Except SvcError Updates :=
  match toSet.lookup "role" with
  | some v =>
    if v.truthy then
      match v with
      | .str s =>
        if isValidObjectId s then
          match db.roles.find? (fun rd => rd._id == s) with
          | some rd => .ok (setEntry toSet "role" (.str rd._id))
          | none => .error { message := "Role not found", status := some 404 }
        else .error { message := "Invalid role id", status := some 400 }
      | _ => .error { message := "Invalid role id", status := some 400 }
    else .ok toSet
  | none => .ok toSet

/-- Password re-hashing step of `updateUser`: a truthy `toSet.password`
is replaced by its hash. -/
def hashStep (toSet : Updates) : Updates :=
  match toSet.lookup "password" with
  | some v => if v.truthy then setEntry toSet "password" (.str (bcryptHash (jsToString v) 10)) else toSet
  | none => toSet

/-- Mongoose cast of a raw value into a string-typed schema field;
`null` is rejected (the schema's validators reject null/empty values
for these fields). -/
def castStr : JVal → Option String
  | .str s => some s
  | .num n => some (toString n)
  | .bool b => some (if b then "true" else "false")
  | .null => none

/-- Mongoose cast of a raw value into a boolean-typed schema field. -/
def castB : JVal → Option Bool
  | .bool b => some b
  | .num 1 => some true
  | .num 0 => some false
  | .str "true" => some true
  | .str "false" => some false
  | .str "1" => some true
  | .str "0" => some false
  | _ => none

/-- Application of one `$set` entry to a stored user document, with
schema casting; keys outside the schema's settable fields leave the
document unchanged.  `none` models a cast/validation failure. -/
def setField (u : User) (k : String) (v : JVal) : Option User :=
  if k == "username" then (castStr v).map (fun s => { u with username := s })
  else if k == "password" then (castStr v).map (fun s => { u with password := some s })
  else if k == "email" then (castStr v).map (fun s => { u with email := s })
  else if k == "fullName" then (castStr v).map (fun s => { u with fullName := s })
  else if k == "avatarUrl" then (castStr v).map (fun s => { u with avatarUrl := s })
  else if k == "status" then (castB v).map (fun b => { u with status := b })
  else if k == "role" then
    match v with
    | .null => some { u with role := none }
    | .str s => if isValidObjectId s then some { u with role := some s } else none
    | _ => none
  else if k == "isDelete" then (castB v).map (fun b => { u with isDelete := b })
  else some u

/-- Application of a whole `$set` object to a stored user document. -/
def applySet (u : User) : Updates → Option User
  | [] => some u
  | (k, v) :: rest => (setField u k v).bind (fun u' => applySet u' rest)

/-- Store-side duplicate-key detection for an updated document: the
unique indexes on `username` and `email` reject a write that collides
with a different document, reporting the offending field. -/
def collideUser (db : DB) (selfId : String) (u' : User) : Option String :=
  if db.users.any (fun v => !(v._id == selfId) && v.username == u'.username) then some "username"
  else if db.users.any (fun v => !(v._id == selfId) && v.email == u'.email) then some "email"
  else none

/-- Replacement of the first list element satisfying a predicate, used
to model a single-document store update. -/
def updateFirst (p : α → Bool) (f : α → α) : List α → List α
  | [] => []
  | x :: xs => if p x then f x :: xs else x :: updateFirst p f xs

/-- The service operation `userService.updateUser`. -/
def updateUser (db : DB) (id : String) (updates : Updates) :
    Except SvcError (Option UserOut × DB) :=
  if !isValidObjectId id then .ok (none, db)
  else
    let toSet := toSetOf updates
    match roleStep db toSet with
    | .error e => .error e
    | .ok ts1 =>
      let ts2 := hashStep ts1
      match db.users.find? (fun v => v._id == id) with
      | none => .ok (none, db)
      | some u =>
        match applySet u ts2 with
        | none => .error { message := "User validation failed", status := none }
        | some u' =>
          match collideUser db id u' with
          | some f => .error { message := f ++ " must be unique", status := some 409 }
          | none =>
            let db' := { db with users := updateFirst (fun v => v._id == id) (fun _ => u') db.users }
            .ok (some (sanitize (populate db.roles u')), db')

/-- The service operation `userService.softDeleteUser`. -/
def softDeleteUser (db : DB) (id : String) : Option UserOut × DB :=
  if !isValidObjectId id then (none, db)
  else
    match db.users.find? (fun v => v._id == id) with
    | none => (none, db)
    | some u =>
      let u' := { u with isDelete := true }
      (some (sanitize (populate db.roles u')),
       { db with users := updateFirst (fun v => v._id == id) (fun _ => u') db.users })

/-- The service operation `userService.verifyUser`. -/
def verifyUser (db : DB) (email username : String) : Option UserOut × DB :=
  if email == "" || username == "" then (none, db)
  else
    match db.users.find? (fun u => u.email == email && u.username == username && !u.isDelete) with
    | none => (none, db)
    | some u =>
      let u' := { u with status := true }
      (some (sanitize (populate db.roles u')),
       { db with users :=
           (updateFirst (fun u => u.email == email && u.username == username && !u.isDelete)
             (fun _ => u') db.users) })

/-! ### Helper lemmas -/

/-- Membership in the insertion step of the descending sort. -/
theorem mem_insertDesc (key : α → Nat) (x a : α) (l : List α) :
    a ∈ insertDesc key x l ↔ a = x ∨ a ∈ l := by
  induction l with
  | nil => simp [insertDesc]
  | cons y ys ih =>
    simp only [insertDesc]
    split
    · simp
    · simp only [List.mem_cons, ih]
      tauto

/-- The descending sort permutes its input. -/
theorem perm_sortDesc (key : α → Nat) (l : List α) : List.Perm (sortDesc key l) l := by
  induction l with
  | nil => simp [sortDesc]
  | cons x xs ih =>
    have hins : ∀ (m : List α), List.Perm (insertDesc key x m) (x :: m) := by
      intro m
      induction m with
      | nil => simp [insertDesc]
      | cons y ys ihm =>
        simp only [insertDesc]
        split
        · exact List.Perm.refl _
        · exact ((ihm.cons y).trans (List.Perm.swap x y ys))
    exact (hins (sortDesc key xs)).trans (ih.cons x)

/-- Membership in the descending sort. -/
theorem mem_sortDesc (key : α → Nat) (a : α) (l : List α) :
    a ∈ sortDesc key l ↔ a ∈ l :=
  (perm_sortDesc key l).mem_iff

/-- Length of the descending sort. -/
theorem length_sortDesc (key : α → Nat) (l : List α) :
    (sortDesc key l).length = l.length :=
  (perm_sortDesc key l).length_eq

/-- The insertion step preserves descending order. -/
theorem pairwise_insertDesc (key : α → Nat) (x : α) (l : List α)
    (h : List.Pairwise (fun a b => key b ≤ key a) l) :
    List.Pairwise (fun a b => key b ≤ key a) (insertDesc key x l) := by
  induction l with
  | nil => simp [insertDesc]
  | cons y ys ih =>
    simp only [insertDesc]
    rw [List.pairwise_cons] at h
    split
    · rename_i hlt
      rw [List.pairwise_cons]
      constructor
      · intro a ha
        rcases List.mem_cons.mp ha with rfl | ha
        · exact Nat.le_of_lt hlt
        · exact Nat.le_trans (h.1 a ha) (Nat.le_of_lt hlt)
      · exact List.pairwise_cons.mpr h
    · rename_i hge
      rw [List.pairwise_cons]
      constructor
      · intro a ha
        rcases (mem_insertDesc key x a ys).mp ha with rfl | ha
        · exact Nat.le_of_not_lt hge
        · exact h.1 a ha
      · exact ih h.2

/-- The descending sort is sorted: each element's key is at least the
key of every later element. -/
theorem pairwise_sortDesc (key : α → Nat) (l : List α) :
    List.Pairwise (fun a b => key b ≤ key a) (sortDesc key l) := by
  induction l with
  | nil => simp [sortDesc]
  | cons x xs ih => exact pairwise_insertDesc key x _ ih

/-- Characterisation of `ceilDivNat` as the ceiling of a division. -/
theorem ceilDivNat_spec (t l : Nat) (hl : 0 < l) :
    t ≤ ceilDivNat t l * l ∧ ceilDivNat t l * l < t + l := by
  unfold ceilDivNat
  rw [Nat.mul_comm]
  have h1 := Nat.div_add_mod (t + l - 1) l
  have h2 := Nat.mod_lt (t + l - 1) hl
  omega

/-- Adding one full page to the total adds exactly one page. -/
theorem ceilDivNat_add_self (m l : Nat) (hl : 0 < l) :
    ceilDivNat (m + l) l = ceilDivNat m l + 1 := by
  unfold ceilDivNat
  have : m + l + l - 1 = (m + l - 1) + l := by omega
  rw [this, Nat.add_div_right _ hl]

/-- One page when the total fits in a single window. -/
theorem ceilDivNat_of_le (t l : Nat) (hl : 0 < l) (ht : 0 < t) (h : t ≤ l) :
    ceilDivNat t l = 1 := by
  unfold ceilDivNat
  have h3 : t + l - 1 = (t - 1) + l := by omega
  rw [h3, Nat.add_div_right _ hl, Nat.div_eq_of_lt (by omega)]

/-- Zero pages exactly for an empty total. -/
theorem ceilDivNat_eq_zero (l : Nat) (hl : 0 < l) : ceilDivNat 0 l = 0 := by
  unfold ceilDivNat
  exact Nat.div_eq_of_lt (by omega)

/-- The first window is a prefix of length at most `l`. -/
theorem pageWindow_one (l : Nat) (xs : List α) : pageWindow 1 l xs = xs.take l := by
  simp [pageWindow]

/-- Later windows are windows of the list with the first page dropped. -/
theorem pageWindow_succ (p l : Nat) (xs : List α) (hp : 1 ≤ p) :
    pageWindow (p + 1) l xs = pageWindow p l (xs.drop l) := by
  unfold pageWindow
  rw [List.drop_drop]
  congr 2
  have hp' : p + 1 - 1 = (p - 1) + 1 := by omega
  rw [hp', Nat.succ_mul]
  omega

/-- Concatenating the windows of pages `1..ceil(len/l)` reproduces the
whole list. -/
theorem join_pageWindows (l : Nat) (hl : 0 < l) (xs : List α) :
    ((List.range (ceilDivNat xs.length l)).map (fun i => pageWindow (i + 1) l xs)).flatten = xs := by
  generalize hn : ceilDivNat xs.length l = n
  induction n generalizing xs with
  | zero =>
    have h1 := ceilDivNat_spec xs.length l hl
    rw [hn] at h1
    have hlen : xs.length = 0 := by omega
    obtain rfl := List.length_eq_zero.mp hlen
    simp
  | succ n ih =>
    rw [List.range_succ_eq_map]
    simp only [List.map_cons, List.map_map, List.flatten_cons]
    rw [pageWindow_one]
    have hwin : ∀ i : Nat, pageWindow (i + 1 + 1) l xs = pageWindow (i + 1) l (xs.drop l) := by
      intro i
      exact pageWindow_succ (i + 1) l xs (by omega)
    have hmap :
        (List.range n).map ((fun i => pageWindow (i + 1) l xs) ∘ Nat.succ)
          = (List.range n).map (fun i => pageWindow (i + 1) l (xs.drop l)) := by
      apply List.map_congr_left
      intro i _
      simpa using hwin i
    rw [hmap]
    have hdrop : ceilDivNat (xs.drop l).length l = n := by
      rw [List.length_drop]
      rcases Nat.le_total xs.length l with h | h
      · have h0 : xs.length - l = 0 := by omega
        rw [h0, ceilDivNat_eq_zero l hl]
        have hpos : 0 < xs.length := by
          by_contra hc
          have h0' : xs.length = 0 := by omega
          rw [h0', ceilDivNat_eq_zero l hl] at hn
          omega
        have := ceilDivNat_of_le xs.length l hl hpos h
        omega
      · have heq : xs.length = (xs.length - l) + l := by omega
        rw [heq, ceilDivNat_add_self _ l hl] at hn
        omega
    rw [show ((List.range n).map (fun i => pageWindow (i + 1) l (xs.drop l))).flatten = xs.drop l
        from ih (xs.drop l) hdrop, List.take_append_drop]

/-- In a list of users with pairwise-distinct ids, searching for a
member's id finds exactly that member. -/
theorem find?_id_of_mem (l : List User) (u : User) (hu : u ∈ l)
    (hnd : (l.map User._id).Nodup) :
    l.find? (fun v => v._id == u._id) = some u := by
  induction l with
  | nil => cases hu
  | cons v vs ih =>
    rw [List.map_cons, List.nodup_cons] at hnd
    rcases List.mem_cons.mp hu with rfl | hu'
    · simp [List.find?]
    · have hvne : (v._id == u._id) = false := by
        rw [beq_eq_false_iff_ne]
        intro hc
        exact hnd.1 (List.mem_map.mpr ⟨u, hu', hc.symm⟩)
      simp only [List.find?, hvne]
      exact ih hu' hnd.2

/-- The sanitized object never carries a password. -/
theorem sanitize_password (o : UserOut) : (sanitize o).password = none := rfl

/-- Sanitizing preserves the soft-delete flag. -/
theorem sanitize_isDelete (o : UserOut) : (sanitize o).isDelete = o.isDelete := rfl

/-- Sanitizing preserves the id. -/
theorem sanitize_id (o : UserOut) : (sanitize o)._id = o._id := rfl

/-- Populating preserves the soft-delete flag. -/
theorem populate_isDelete (roles : List Role) (u : User) :
    (populate roles u).isDelete = u.isDelete := rfl

/-- Populating preserves the id. -/
theorem populate_id (roles : List Role) (u : User) :
    (populate roles u)._id = u._id := rfl

/-- Populating preserves the creation timestamp. -/
theorem populate_createdAt (roles : List Role) (u : User) :
    (populate roles u).createdAt = u.createdAt := rfl

/-- On a metacharacter-free pattern character, the regex character
step is literal equality. -/
theorem charMatchRe_of_metaFree (p c : Char) (hp : metaFreeChar p = true) :
    charMatchRe p c = (p == c) := by
  cases h : p == '.' with
  | false => simp [charMatchRe, h]
  | true =>
    rw [metaFreeChar, h] at hp
    simp at hp

/-- On a metacharacter-free pattern, an anchored match holds exactly
when the pattern heads the subject. -/
theorem matchHere_metaFree (p s : List Char) (hp : p.all metaFreeChar = true) :
    matchHere p s = true ↔ ∃ t, s = p ++ t := by
  induction p generalizing s with
  | nil =>
    simp [matchHere]
  | cons pc ps ih =>
    rw [List.all_cons, Bool.and_eq_true] at hp
    cases s with
    | nil =>
      simp [matchHere]
    | cons c cs =>
      rw [matchHere, Bool.and_eq_true, charMatchRe_of_metaFree pc c hp.1, ih cs hp.2]
      constructor
      · rintro ⟨hc, t, rfl⟩
        exact ⟨t, by rw [(beq_iff_eq ..).mp hc]; rfl⟩
      · rintro ⟨t, ht⟩
        rw [List.cons_append] at ht
        injection ht with h1 h2
        exact ⟨by simp [h1], t, h2⟩

/-- On a metacharacter-free pattern, the unanchored search holds
exactly when the pattern occurs contiguously inside the subject. -/
theorem matchFrom_metaFree (p s : List Char) (hp : p.all metaFreeChar = true) :
    matchFrom p s = true ↔ ∃ a b, s = a ++ p ++ b := by
  induction s with
  | nil =>
    rw [matchFrom, matchHere_metaFree p [] hp]
    constructor
    · rintro ⟨t, ht⟩
      exact ⟨[], t, by simp [ht]⟩
    · rintro ⟨a, b, hab⟩
      have ha : a = [] := by
        cases a with
        | nil => rfl
        | cons x xs => simp at hab
      subst ha
      exact ⟨b, by simpa using hab⟩
  | cons c cs ih =>
    rw [matchFrom, Bool.or_eq_true, matchHere_metaFree p (c :: cs) hp, ih]
    constructor
    · rintro (⟨t, ht⟩ | ⟨a, b, hab⟩)
      · exact ⟨[], t, by simp [ht]⟩
      · exact ⟨c :: a, b, by simp [hab]⟩
    · rintro ⟨a, b, hab⟩
      cases a with
      | nil =>
        left
        exact ⟨b, by simpa using hab⟩
      | cons x xs =>
        right
        rw [List.cons_append, List.cons_append] at hab
        injection hab with h1 h2
        exact ⟨xs, b, by simp [h2]⟩

/-! ### Claim C1 -/

/-- A user object free of the password field. -/
def outClean (o : UserOut) : Bool := o.password == none

/-- Password-freedom of a `createUser` result. -/
def createClean : Except SvcError (UserOut × DB) → Bool
  | .ok (o, _) => outClean o
  | .error _ => true

/-- Password-freedom of every item of a listing result. -/
def listClean (r : ListResult UserOut) : Bool := r.itemsOf.all outClean

/-- Password-freedom of an optional result. -/
def optClean : Option UserOut → Bool
  | some o => outClean o
  | none => true

/-- Password-freedom of an `updateUser` result. -/
def updateClean : Except SvcError (Option UserOut × DB) → Bool
  | .ok (o, _) => optClean o
  | .error _ => true

/-- Password-freedom of a result-and-state pair. -/
def pairClean (r : Option UserOut × DB) : Bool := optClean r.1

/-- Mapping a sanitizing conversion over any list yields only
password-free objects. -/
theorem listClean_map (g : User → UserOut) (l : List User) :
    (l.map (fun u => sanitize (g u))).all outClean = true := by
  induction l with
  | nil => rfl
  | cons x xs ih =>
    rw [List.map_cons, List.all_cons, ih]
    rfl

/-- C1: for every operation of the service layer (createUser,
getAllUsers, getUserByUsername, getUserById, updateUser,
softDeleteUser, verifyUser) and every input, any user value returned
across the service boundary has no password field. -/
theorem c1_no_password_across_boundary (db : DB) (p : CreatePayload)
    (pg lm un fn : Option String) (uname id em vn : String) (ups : Updates) :
    createClean (createUser db p) = true
    ∧ listClean (getAllUsers db pg lm un fn) = true
    ∧ optClean (getUserByUsername db uname) = true
    ∧ optClean (getUserById db id) = true
    ∧ updateClean (updateUser db id ups) = true
    ∧ pairClean (softDeleteUser db id) = true
    ∧ pairClean (verifyUser db em vn) = true := by
  refine ⟨?_, ?_, ?_, ?_, ?_, ?_, ?_⟩
  · unfold createUser
    repeat' (first | split | dsimp only)
    all_goals rfl
  · unfold getAllUsers
    split
    · exact listClean_map _ _
    · exact listClean_map _ _
  · unfold getUserByUsername
    split
    · rfl
    · cases db.users.find? (fun u => u.username == uname && !u.isDelete) <;> rfl
  · unfold getUserById
    split
    · rfl
    · cases db.users.find? (fun u => u._id == id) <;> rfl
  · unfold updateUser
    repeat' (first | split | dsimp only)
    all_goals rfl
  · unfold softDeleteUser
    repeat' (first | split | dsimp only)
    all_goals rfl
  · unfold verifyUser
    repeat' (first | split | dsimp only)
    all_goals rfl

/-! ### Claim C2 -/

/-- In a list of users with pairwise-distinct ids, equal ids force
equal elements. -/
theorem eq_of_id_eq_of_nodup (l : List User) (u v : User) (hu : u ∈ l) (hv : v ∈ l)
    (hnd : (l.map User._id).Nodup) (h : v._id = u._id) : v = u :=
  List.inj_on_of_nodup_map hnd hv hu h

/-- Every item of a `getAllUsers` result is the sanitized, populated
image of a stored user matching the query predicate. -/
theorem itemsOf_getAllUsers_shape (db : DB) (pg lm un fn : Option String) :
    ∀ o ∈ (getAllUsers db pg lm un fn).itemsOf,
      ∃ v ∈ db.users, usersQuery un fn v = true ∧ o = sanitize (populate db.roles v) := by
  intro o ho
  unfold getAllUsers at ho
  have hsub : ∀ v : User,
      v ∈ sortDesc User.createdAt (db.users.filter (usersQuery un fn)) →
      v ∈ db.users ∧ usersQuery un fn v = true := by
    intro v hv
    rw [mem_sortDesc] at hv
    exact List.mem_filter.mp hv
  split at ho
  · simp only [usersPagedResult, ListResult.itemsOf] at ho
    rcases List.mem_map.mp ho with ⟨v, hv, rfl⟩
    have hv' := List.mem_of_mem_drop (List.mem_of_mem_take hv)
    rcases hsub v hv' with ⟨h1, h2⟩
    exact ⟨v, h1, h2, rfl⟩
  · simp only [ListResult.itemsOf] at ho
    rcases List.mem_map.mp ho with ⟨v, hv, rfl⟩
    rcases hsub v hv with ⟨h1, h2⟩
    exact ⟨v, h1, h2, rfl⟩

/-- C2: a user record with isDelete = true appears in no result of
getAllUsers (with any filter) and is never returned by
getUserByUsername, but getUserById with that record's id still returns
the record, with isDelete true. -/
theorem c2_soft_deleted_visibility (db : DB) (u : User)
    (pg lm un fn : Option String) (s : String)
    (hu : u ∈ db.users) (hd : u.isDelete = true)
    (hnd : (db.users.map User._id).Nodup) (hv : isValidObjectId u._id = true) :
    ((getAllUsers db pg lm un fn).itemsOf.all (fun o => !(o._id == u._id))) = true
    ∧ ((getUserByUsername db s).all (fun o => !(o._id == u._id))) = true
    ∧ getUserById db u._id = some (sanitize (populate db.roles u))
    ∧ (sanitize (populate db.roles u)).isDelete = true := by
  refine ⟨?_, ?_, ?_, ?_⟩
  · rw [List.all_eq_true]
    intro o ho
    rcases itemsOf_getAllUsers_shape db pg lm un fn o ho with ⟨v, hvm, hq, rfl⟩
    have hvd : v.isDelete = false := by
      unfold usersQuery at hq
      rcases Bool.and_eq_true .. |>.mp hq with ⟨hq1, _⟩
      rcases Bool.and_eq_true .. |>.mp hq1 with ⟨hq2, _⟩
      simpa using hq2
    have hne : v._id ≠ u._id := by
      intro hc
      have := eq_of_id_eq_of_nodup db.users u v hu hvm hnd hc
      rw [this] at hvd
      rw [hd] at hvd
      cases hvd
    rw [sanitize_id, populate_id]
    simpa using hne
  · unfold getUserByUsername
    split
    · rfl
    · cases hfind : db.users.find? (fun w => w.username == s && !w.isDelete) with
      | none => rfl
      | some v =>
        have hvm := List.mem_of_find?_eq_some hfind
        have hp := List.find?_some hfind
        have hvd : v.isDelete = false := by
          rcases Bool.and_eq_true .. |>.mp hp with ⟨_, hq2⟩
          simpa using hq2
        have hne : v._id ≠ u._id := by
          intro hc
          have := eq_of_id_eq_of_nodup db.users u v hu hvm hnd hc
          rw [this] at hvd
          rw [hd] at hvd
          cases hvd
        show (!((sanitize (populate db.roles v))._id == u._id)) = true
        rw [sanitize_id, populate_id]
        simpa using hne
  · unfold getUserById
    rw [hv]
    simp only [Bool.not_true, Bool.false_eq_true, if_false]
    rw [find?_id_of_mem db.users u hu hnd]
    rfl
  · rw [sanitize_isDelete, populate_isDelete]
    exact hd

/-- Concrete store for the C2 witness: one soft-deleted user. -/
def c2User : User :=
  { _id := "aaaaaaaaaaaaaaaaaaaaaaaa", username := "alice", password := some "h",
    email := "a@x.com", fullName := "", avatarUrl := "", role := none,
    status := false, isDelete := true, createdAt := 3 }

/-- Concrete store for the C2 witness. -/
def c2DB : DB := { users := [c2User], roles := [], nextId := 10 }

/-- Witness for C2 at a concrete store: the hypotheses hold by
computation and the conclusion follows from the theorem. -/
theorem c2_soft_deleted_visibility_witness :
    (c2User ∈ c2DB.users ∧ c2User.isDelete = true
      ∧ (c2DB.users.map User._id).Nodup ∧ isValidObjectId c2User._id = true)
    ∧ (((getAllUsers c2DB none none none none).itemsOf.all (fun o => !(o._id == c2User._id))) = true
      ∧ ((getUserByUsername c2DB "alice").all (fun o => !(o._id == c2User._id))) = true
      ∧ getUserById c2DB c2User._id = some (sanitize (populate c2DB.roles c2User))
      ∧ (sanitize (populate c2DB.roles c2User)).isDelete = true) :=
  ⟨⟨by decide, by decide, by decide, by decide⟩,
   c2_soft_deleted_visibility c2DB c2User none none none none "alice"
     (by decide) (by decide) (by decide) (by decide)⟩

/-! ### Claim C8 -/

/-- Concrete store for the C8 counterexample and witness: a single
soft-deleted user with a syntactically valid id. -/
def c8User : User :=
  { _id := "bbbbbbbbbbbbbbbbbbbbbbbb", username := "bob", password := some "h",
    email := "b@x.com", fullName := "", avatarUrl := "", role := none,
    status := false, isDelete := true, createdAt := 1 }

/-- Concrete store for the C8 counterexample and witness. -/
def c8DB : DB := { users := [c8User], roles := [], nextId := 5 }

/-- C8 counterexample: getUserById returns a record whose isDelete is
true, refuting the claim that it returns a result only for records
with isDelete = false. -/
theorem c8_counterexample_returns_deleted :
    ((getUserById c8DB "bbbbbbbbbbbbbbbbbbbbbbbb").map UserOut.isDelete) = some true := by
  decide

/-- C8 (amended): getUserById performs its exact lookup among all
users regardless of the soft-delete flag; it returns no result (not an
error) for invalid id syntax or when no record carries the id, and
returns the sanitized populated record otherwise. -/
theorem c8_amended_lookup_ignores_isDelete (db : DB) (id : String) :
    (isValidObjectId id = false → getUserById db id = none)
    ∧ (db.users.find? (fun v => v._id == id) = none → getUserById db id = none)
    ∧ (isValidObjectId id = true → ∀ u, db.users.find? (fun v => v._id == id) = some u →
        getUserById db id = some (sanitize (populate db.roles u))) := by
  refine ⟨?_, ?_, ?_⟩
  · intro h
    unfold getUserById
    rw [h]
    rfl
  · intro h
    unfold getUserById
    rw [h]
    split <;> rfl
  · intro hval u h
    unfold getUserById
    rw [hval, h]
    rfl

/-- Witness for C8's amended theorem at the concrete store: the
soft-deleted record is found by id and returned sanitized. -/
theorem c8_amended_lookup_ignores_isDelete_witness :
    isValidObjectId "bbbbbbbbbbbbbbbbbbbbbbbb" = true
    ∧ c8DB.users.find? (fun v => v._id == "bbbbbbbbbbbbbbbbbbbbbbbb") = some c8User
    ∧ getUserById c8DB "bbbbbbbbbbbbbbbbbbbbbbbb"
        = some (sanitize (populate c8DB.roles c8User)) :=
  ⟨by decide, by decide,
   (c8_amended_lookup_ignores_isDelete c8DB "bbbbbbbbbbbbbbbbbbbbbbbb").2.2
     (by decide) c8User (by decide)⟩

/-! ### Claim C10 -/

/-- C10: for every otherwise-valid createUser payload, the created
record's status is true exactly when the payload's status field is the
boolean value true; any non-boolean status value yields status =
false. -/
theorem c10_status_requires_boolean_true (db : DB) (p : CreatePayload)
    (h1 : ¬p.username = "") (h2 : ¬p.password = "") (h3 : ¬p.email = "")
    (h4 : p.role = none)
    (h5 : db.users.any (fun v => v.username == trimJS p.username) = false)
    (h6 : db.users.any (fun v => v.email == trimJS p.email) = false) :
    (createUser db p).toOption.map (fun x => x.1.status)
      = some (p.status == JVal.bool true) := by
  unfold createUser
  rw [show (p.username == "" || p.password == "" || p.email == "") = false by
        simp [h1, h2, h3]]
  rw [h4]
  simp only [resolveRole]
  rw [h5, h6]
  simp only [Bool.false_eq_true, if_false]
  cases p.status with
  | str s => rfl
  | num n => rfl
  | bool b => cases b <;> rfl
  | null => rfl

/-- Concrete payload for the C10 witness: a supplied status that is
the string "true", not the boolean true. -/
def c10Payload : CreatePayload :=
  { username := "carol", password := "pw", email := "c@x.com", status := .str "true" }

/-- Empty store for the C10 witness. -/
def c10DB : DB := { users := [], roles := [], nextId := 0 }

/-- Witness for C10: all validity hypotheses hold by computation, the
created record's status is false, and the supplied status is not the
boolean true. -/
theorem c10_status_requires_boolean_true_witness :
    (¬c10Payload.username = "" ∧ ¬c10Payload.password = "" ∧ ¬c10Payload.email = ""
      ∧ c10Payload.role = none
      ∧ c10DB.users.any (fun v => v.username == trimJS c10Payload.username) = false
      ∧ c10DB.users.any (fun v => v.email == trimJS c10Payload.email) = false)
    ∧ (createUser c10DB c10Payload).toOption.map (fun x => x.1.status)
        = some (c10Payload.status == JVal.bool true)
    ∧ (c10Payload.status == JVal.bool true) = false :=
  ⟨⟨by decide, by decide, by decide, by decide, by decide, by decide⟩,
   c10_status_requires_boolean_true c10DB c10Payload
     (by decide) (by decide) (by decide) (by decide) (by decide) (by decide),
   by decide⟩

/-! ### Claim C7 -/

/-- Relating a list to its single-document update: each element is
either untouched or the image of the replacement, where the first
element matching the predicate is the found document. -/
theorem forall₂_updateFirst_of_find? (p : α → Bool) (f : α → α) (l : List α) (u : α)
    (hfind : l.find? p = some u) (R : α → α → Prop)
    (hrefl : ∀ x ∈ l, R x x) (hu : R u (f u)) :
    List.Forall₂ R l (updateFirst p f l) := by
  induction l with
  | nil => constructor
  | cons x xs ih =>
    unfold updateFirst
    by_cases hx : p x = true
    · rw [if_pos hx]
      have hux : x = u := by
        simp only [List.find?, hx] at hfind
        exact Option.some.inj hfind
      subst hux
      exact List.Forall₂.cons hu
        (List.forall₂_same.mpr (fun y hy => hrefl y (List.mem_cons_of_mem x hy)))
    · rw [if_neg hx]
      have hfind' : xs.find? p = some u := by
        simp only [List.find?] at hfind
        rcases hpx : p x with _ | _
        · rw [hpx] at hfind
          exact hfind
        · exact absurd hpx hx
      exact List.Forall₂.cons (hrefl x (List.mem_cons_self x xs))
        (ih hfind' (fun y hy => hrefl y (List.mem_cons_of_mem x hy)))

/-- C7: verifyUser sets status = true exactly when some non-deleted
record matches both the given email and the given username, returning
that record updated; with no match it returns no result and leaves the
store unchanged, and in all cases every stored record is either
untouched or only has its status flipped to true. -/
theorem c7_verify_requires_both_fields (db : DB) (e un : String)
    (he : ¬e = "") (hu : ¬un = "") :
    ((verifyUser db e un).1.isSome
        = db.users.any (fun u => u.email == e && u.username == un && !u.isDelete))
    ∧ ((verifyUser db e un).1 = none → (verifyUser db e un).2 = db)
    ∧ ((verifyUser db e un).1.all
        (fun o => o.status && (o.email == e) && (o.username == un) && !o.isDelete)) = true
    ∧ List.Forall₂ (fun old new => new = old ∨ new = { old with status := true })
        db.users (verifyUser db e un).2.users := by
  have hguard : (e == "" || un == "") = false := by simp [he, hu]
  unfold verifyUser
  rw [hguard]
  simp only [Bool.false_eq_true, if_false]
  cases hfind : db.users.find? (fun u => u.email == e && u.username == un && !u.isDelete) with
  | none =>
    refine ⟨?_, fun _ => rfl, rfl, ?_⟩
    · rw [List.find?_eq_none] at hfind
      simp only [Option.isSome_none]
      symm
      rw [Bool.eq_false_iff]
      intro hc
      rcases List.any_eq_true.mp hc with ⟨x, hx, hpx⟩
      exact hfind x hx hpx
    · exact List.forall₂_same.mpr (fun x _ => Or.inl rfl)
  | some u =>
    have hp := List.find?_some hfind
    have hm := List.mem_of_find?_eq_some hfind
    refine ⟨?_, ?_, ?_, ?_⟩
    · simp only [Option.isSome_some]
      symm
      exact List.any_eq_true.mpr ⟨u, hm, hp⟩
    · intro h
      cases h
    · rcases Bool.and_eq_true .. |>.mp hp with ⟨hp1, hp3⟩
      rcases Bool.and_eq_true .. |>.mp hp1 with ⟨hpe, hpu⟩
      show ((sanitize (populate db.roles { u with status := true })).status
          && ((sanitize (populate db.roles { u with status := true })).email == e)
          && ((sanitize (populate db.roles { u with status := true })).username == un)
          && !(sanitize (populate db.roles { u with status := true })).isDelete) = true
      have h1 : (sanitize (populate db.roles { u with status := true })).status = true := rfl
      have h2 : (sanitize (populate db.roles { u with status := true })).email = u.email := rfl
      have h3 : (sanitize (populate db.roles { u with status := true })).username = u.username := rfl
      have h4 : (sanitize (populate db.roles { u with status := true })).isDelete = u.isDelete := rfl
      rw [h1, h2, h3, h4, hpe, hpu]
      rw [Bool.not_eq_true'] at hp3
      rw [hp3]
      rfl
    · exact forall₂_updateFirst_of_find? _ _ db.users u hfind _
        (fun x _ => Or.inl rfl) (Or.inr rfl)

/-- Concrete store for the C7 witness: one active user. -/
def c7User : User :=
  { _id := "cccccccccccccccccccccccc", username := "dana", password := some "h",
    email := "d@x.com", fullName := "", avatarUrl := "", role := none,
    status := false, isDelete := false, createdAt := 2 }

/-- Concrete store for the C7 witness. -/
def c7DB : DB := { users := [c7User], roles := [], nextId := 9 }

/-- Witness for C7 at a concrete store and non-empty credentials. -/
theorem c7_verify_requires_both_fields_witness :
    (¬"d@x.com" = "" ∧ ¬"dana" = "")
    ∧ (((verifyUser c7DB "d@x.com" "dana").1.isSome
        = c7DB.users.any (fun u => u.email == "d@x.com" && u.username == "dana" && !u.isDelete))
      ∧ ((verifyUser c7DB "d@x.com" "dana").1 = none → (verifyUser c7DB "d@x.com" "dana").2 = c7DB)
      ∧ ((verifyUser c7DB "d@x.com" "dana").1.all
          (fun o => o.status && (o.email == "d@x.com") && (o.username == "dana") && !o.isDelete)) = true
      ∧ List.Forall₂ (fun old new => new = old ∨ new = { old with status := true })
          c7DB.users (verifyUser c7DB "d@x.com" "dana").2.users) :=
  ⟨⟨by decide, by decide⟩,
   c7_verify_requires_both_fields c7DB "d@x.com" "dana" (by decide) (by decide)⟩

/-! ### Claim C6 -/

/-- Replacing the value at a key leaves the key sequence unchanged. -/
theorem keys_setEntry (l : Updates) (k : String) (v : JVal) :
    (setEntry l k v).map Prod.fst = l.map Prod.fst := by
  unfold setEntry
  rw [List.map_map]
  apply List.map_congr_left
  intro e _
  by_cases h : (e.1 == k) = true
  · simp only [Function.comp, h, if_true]
    exact ((beq_iff_eq ..).mp h).symm
  · simp [Function.comp, h]

/-- The role-validation step preserves the key sequence of `toSet`. -/
theorem keys_roleStep (db : DB) (ts ts' : Updates) (h : roleStep db ts = .ok ts') :
    ts'.map Prod.fst = ts.map Prod.fst := by
  unfold roleStep at h
  repeat' split at h
  all_goals first
    | (injection h with h; subst h; first | rfl | exact keys_setEntry ..)
    | injection h

/-- The password-hashing step preserves the key sequence of `toSet`. -/
theorem keys_hashStep (ts : Updates) : (hashStep ts).map Prod.fst = ts.map Prod.fst := by
  unfold hashStep
  repeat' split
  all_goals first
    | rfl
    | exact keys_setEntry ..

/-- Every key of the `toSet` object is in the allow-list. -/
theorem keys_toSetOf_mem (ups : Updates) (k : String)
    (h : k ∈ (toSetOf ups).map Prod.fst) : k ∈ allowedFields := by
  rcases List.mem_map.mp h with ⟨e, he, rfl⟩
  rcases List.mem_filterMap.mp he with ⟨a, ha, hfa⟩
  cases hl : ups.lookup a with
  | none => rw [hl] at hfa; cases hfa
  | some v =>
    rw [hl] at hfa
    injection hfa with hfa
    subst hfa
    exact ha

/-- No allow-list key is the soft-delete flag. -/
theorem ne_isDelete_of_allowed (k : String) (h : k ∈ allowedFields) :
    (k == "isDelete") = false := by
  fin_cases h <;> decide

/-- A single `$set` step never touches the creation timestamp or the
id. -/
theorem setField_keeps_created_id (u : User) (k : String) (v : JVal) (u' : User)
    (h : setField u k v = some u') : u'.createdAt = u.createdAt ∧ u'._id = u._id := by
  unfold setField at h
  repeat' split at h
  all_goals first
    | (injection h with h; subst h; exact ⟨rfl, rfl⟩)
    | (rcases Option.map_eq_some'.mp h with ⟨s, _, rfl⟩; exact ⟨rfl, rfl⟩)
    | injection h

/-- A single `$set` step on a key other than `isDelete` preserves the
soft-delete flag. -/
theorem setField_isDelete_of_ne (u : User) (k : String) (v : JVal) (u' : User)
    (h : setField u k v = some u') (hk : (k == "isDelete") = false) :
    u'.isDelete = u.isDelete := by
  unfold setField at h
  repeat' split at h
  all_goals first
    | (exact absurd (show (k == "isDelete") = true from by assumption) (by simp [hk]))
    | (injection h with h; subst h; rfl)
    | (rcases Option.map_eq_some'.mp h with ⟨s, _, rfl⟩; rfl)
    | injection h

/-- Applying a `$set` object whose keys avoid `isDelete` preserves the
soft-delete flag, the creation timestamp and the id. -/
theorem applySet_frame (u : User) (ts : Updates) (u' : User)
    (h : applySet u ts = some u')
    (hk : ∀ k ∈ ts.map Prod.fst, (k == "isDelete") = false) :
    u'.isDelete = u.isDelete ∧ u'.createdAt = u.createdAt ∧ u'._id = u._id := by
  induction ts generalizing u with
  | nil =>
    injection h with h
    subst h
    exact ⟨rfl, rfl, rfl⟩
  | cons e es ih =>
    obtain ⟨k, v⟩ := e
    simp only [applySet] at h
    cases hf : setField u k v with
    | none => rw [hf] at h; cases h
    | some u1 =>
      rw [hf] at h
      simp only [Option.some_bind] at h
      have h1 := setField_isDelete_of_ne u k v u1 hf (hk k (by simp))
      have h2 := setField_keeps_created_id u k v u1 hf
      have h3 := ih u1 h (fun k' hk' => hk k' (by simp [hk']))
      exact ⟨h3.1.trans h1, h3.2.1.trans h2.1, h3.2.2.trans h2.2⟩

/-- The update object of the claim's particular scenario. -/
def c6Updates : Updates := [("isDelete", JVal.bool true), ("fullName", JVal.str "X")]

/-- C6: updateUser modifies only fields in the allow-list — for each
successful update the target's `isDelete`, `createdAt` and `_id` (the
fields outside the allow-list) are unchanged — and in particular
updating with `{isDelete: true, fullName: "X"}` changes fullName but
leaves isDelete unchanged. -/
theorem c6_update_allow_list_frame (db : DB) (id : String) (ups : Updates) :
    (match db.users.find? (fun v => v._id == id), updateUser db id ups with
     | some u, .ok (some o, _) =>
        o.isDelete == u.isDelete && o.createdAt == u.createdAt && o._id == u._id
     | _, _ => true) = true
    ∧ (match db.users.find? (fun v => v._id == id), updateUser db id c6Updates with
       | some u, .ok (some o, _) => o.fullName == "X" && o.isDelete == u.isDelete
       | _, _ => true) = true := by
  have main : ∀ (ups' : Updates) (u : User),
      db.users.find? (fun v => v._id == id) = some u →
      ∀ o db2, updateUser db id ups' = .ok (some o, db2) →
      o.isDelete = u.isDelete ∧ o.createdAt = u.createdAt ∧ o._id = u._id := by
    intro ups' u hfind o db2 hup
    unfold updateUser at hup
    by_cases hval : (!isValidObjectId id) = true
    · rw [if_pos hval] at hup
      injection hup with hup
      injection hup with h1 h2
      cases h1
    · rw [if_neg hval] at hup
      dsimp only at hup
      cases hrs : roleStep db (toSetOf ups') with
      | error e => rw [hrs] at hup; cases hup
      | ok ts1 =>
        rw [hrs, hfind] at hup
        dsimp only at hup
        cases has : applySet u (hashStep ts1) with
        | none => rw [has] at hup; cases hup
        | some u' =>
          rw [has] at hup
          dsimp only at hup
          cases hcol : collideUser db id u' with
          | some f => rw [hcol] at hup; cases hup
          | none =>
            rw [hcol] at hup
            injection hup with hup
            injection hup with ho hdb
            injection ho with ho
            have hkeys : ∀ k ∈ (hashStep ts1).map Prod.fst, (k == "isDelete") = false := by
              intro k hkmem
              rw [keys_hashStep, keys_roleStep db (toSetOf ups') ts1 hrs] at hkmem
              exact ne_isDelete_of_allowed k (keys_toSetOf_mem ups' k hkmem)
            have hframe := applySet_frame u (hashStep ts1) u' has hkeys
            rw [← ho]
            refine ⟨?_, ?_, ?_⟩
            · rw [sanitize_isDelete, populate_isDelete]; exact hframe.1
            · rw [show (sanitize (populate db.roles u')).createdAt = u'.createdAt from rfl]
              exact hframe.2.1
            · rw [sanitize_id, populate_id]; exact hframe.2.2
  constructor
  · cases hfind : db.users.find? (fun v => v._id == id) with
    | none => cases updateUser db id ups <;> rfl
    | some u =>
      cases hup : updateUser db id ups with
      | error e => rfl
      | ok pr =>
        obtain ⟨oo, db2⟩ := pr
        cases oo with
        | none => rfl
        | some o =>
          rcases main ups u hfind o db2 hup with ⟨m1, m2, m3⟩
          simp [m1, m2, m3]
  · cases hfind : db.users.find? (fun v => v._id == id) with
    | none => cases updateUser db id c6Updates <;> rfl
    | some u =>
      cases hup : updateUser db id c6Updates with
      | error e => rfl
      | ok pr =>
        obtain ⟨oo, db2⟩ := pr
        cases oo with
        | none => rfl
        | some o =>
          rcases main c6Updates u hfind o db2 hup with ⟨m1, _, _⟩
          have hfn : o.fullName = "X" := by
            unfold updateUser at hup
            by_cases hval : (!isValidObjectId id) = true
            · rw [if_pos hval] at hup
              injection hup with hup
              injection hup with h1 h2
              cases h1
            · rw [if_neg hval] at hup
              dsimp only at hup
              rw [show roleStep db (toSetOf c6Updates)
                     = Except.ok [("fullName", JVal.str "X")] from rfl] at hup
              rw [hfind] at hup
              dsimp only at hup
              rw [show applySet u (hashStep [("fullName", JVal.str "X")])
                     = some { u with fullName := "X" } from rfl] at hup
              dsimp only at hup
              cases hcol : collideUser db id { u with fullName := "X" } with
              | some f => rw [hcol] at hup; cases hup
              | none =>
                rw [hcol] at hup
                injection hup with hup
                injection hup with ho hdb
                injection ho with ho
                rw [← ho]
                rfl
          simp [hfn, m1]

/-! ### Claim C5 -/

/-- C5: every createUser or updateUser write that collides with an
existing record's username or email (all other inputs valid — the
required fields present and the role reference resolving) fails with a
409 conflict whose message names the duplicate field; in particular a
username collision on create yields the conflict naming "username".
Stated for creates with any resolving role and for arbitrary update
objects whose processing reaches the write, colliding on username or
on email.  The store-side duplicate-key reporting is the modelled
unique-index behaviour (see `createUser`/`collideUser`). -/
theorem c5_unique_collision_conflict (db : DB) (p1 p2 : CreatePayload)
    (id : String) (ups1 ups2 ts1 ts2 : Updates) (u u1' u2' : User) (r1 r2 : Option String)
    (ha1 : ¬p1.username = "") (ha2 : ¬p1.password = "") (ha3 : ¬p1.email = "")
    (ha4 : resolveRole db p1.role = .ok r1)
    (hdup1 : db.users.any (fun v => v.username == trimJS p1.username) = true)
    (hb1 : ¬p2.username = "") (hb2 : ¬p2.password = "") (hb3 : ¬p2.email = "")
    (hb4 : resolveRole db p2.role = .ok r2)
    (hnod2 : db.users.any (fun v => v.username == trimJS p2.username) = false)
    (hdup2 : db.users.any (fun v => v.email == trimJS p2.email) = true)
    (hval : isValidObjectId id = true)
    (hfind : db.users.find? (fun v => v._id == id) = some u)
    (hrs1 : roleStep db (toSetOf ups1) = .ok ts1)
    (happ1 : applySet u (hashStep ts1) = some u1')
    (hanyU : db.users.any (fun v => !(v._id == id) && v.username == u1'.username) = true)
    (hrs2 : roleStep db (toSetOf ups2) = .ok ts2)
    (happ2 : applySet u (hashStep ts2) = some u2')
    (hnoU : db.users.any (fun v => !(v._id == id) && v.username == u2'.username) = false)
    (hanyE : db.users.any (fun v => !(v._id == id) && v.email == u2'.email) = true) :
    createUser db p1 = .error { message := "username must be unique", status := some 409 }
    ∧ createUser db p2 = .error { message := "email must be unique", status := some 409 }
    ∧ updateUser db id ups1
        = .error { message := "username must be unique", status := some 409 }
    ∧ updateUser db id ups2
        = .error { message := "email must be unique", status := some 409 } := by
  refine ⟨?_, ?_, ?_, ?_⟩
  · unfold createUser
    rw [show (p1.username == "" || p1.password == "" || p1.email == "") = false by
          simp [ha1, ha2, ha3]]
    simp only [Bool.false_eq_true, if_false]
    rw [ha4]
    dsimp only
    rw [hdup1]
    simp
  · unfold createUser
    rw [show (p2.username == "" || p2.password == "" || p2.email == "") = false by
          simp [hb1, hb2, hb3]]
    simp only [Bool.false_eq_true, if_false]
    rw [hb4]
    dsimp only
    rw [hnod2, hdup2]
    simp
  · unfold updateUser
    rw [show (!isValidObjectId id) = false by rw [hval]; rfl]
    simp only [Bool.false_eq_true, if_false]
    rw [hrs1]
    dsimp only
    rw [hfind]
    dsimp only
    rw [happ1]
    dsimp only
    have hcol : collideUser db id u1' = some "username" := by
      unfold collideUser
      rw [hanyU]
      simp
    rw [hcol]
    rfl
  · unfold updateUser
    rw [show (!isValidObjectId id) = false by rw [hval]; rfl]
    simp only [Bool.false_eq_true, if_false]
    rw [hrs2]
    dsimp only
    rw [hfind]
    dsimp only
    rw [happ2]
    dsimp only
    have hcol : collideUser db id u2' = some "email" := by
      unfold collideUser
      rw [hnoU, hanyE]
      simp
    rw [hcol]
    rfl

/-- First stored user for the C5 witness. -/
def c5Eve : User :=
  { _id := "eeeeeeeeeeeeeeeeeeeeeeee", username := "eve", password := some "h1",
    email := "e@x.com", fullName := "", avatarUrl := "", role := none,
    status := false, isDelete := false, createdAt := 1 }

/-- Second stored user for the C5 witness, the update target. -/
def c5Gina : User :=
  { _id := "1111111111111111111111aa", username := "gina", password := some "h2",
    email := "g@x.com", fullName := "", avatarUrl := "", role := none,
    status := false, isDelete := false, createdAt := 2 }

/-- Concrete store for the C5 witness. -/
def c5DB : DB := { users := [c5Eve, c5Gina], roles := [], nextId := 7 }

/-- Colliding create payload for the C5 witness (username collision). -/
def c5P1 : CreatePayload := { username := "eve", password := "pw", email := "new@x.com" }

/-- Colliding create payload for the C5 witness (email collision). -/
def c5P2 : CreatePayload := { username := "fred", password := "pw", email := "e@x.com" }

/-- Update object for the C5 witness colliding on username. -/
def c5Ups1 : Updates := [("username", JVal.str "eve")]

/-- Update object for the C5 witness colliding on email. -/
def c5Ups2 : Updates := [("email", JVal.str "e@x.com")]

/-- Updated target document for the C5 witness username collision. -/
def c5G1 : User := { c5Gina with username := "eve" }

/-- Updated target document for the C5 witness email collision. -/
def c5G2 : User := { c5Gina with email := "e@x.com" }

/-- Witness for C5: all hypotheses hold by computation at the concrete
store, and each colliding write yields the 409 naming its field. -/
theorem c5_unique_collision_conflict_witness :
    (resolveRole c5DB c5P1.role = .ok none
      ∧ c5DB.users.any (fun v => v.username == trimJS c5P1.username) = true
      ∧ resolveRole c5DB c5P2.role = .ok none
      ∧ c5DB.users.any (fun v => v.username == trimJS c5P2.username) = false
      ∧ c5DB.users.any (fun v => v.email == trimJS c5P2.email) = true
      ∧ isValidObjectId "1111111111111111111111aa" = true
      ∧ c5DB.users.find? (fun v => v._id == "1111111111111111111111aa") = some c5Gina
      ∧ roleStep c5DB (toSetOf c5Ups1) = .ok c5Ups1
      ∧ applySet c5Gina (hashStep c5Ups1) = some c5G1
      ∧ c5DB.users.any
          (fun v => !(v._id == "1111111111111111111111aa") && v.username == c5G1.username) = true
      ∧ roleStep c5DB (toSetOf c5Ups2) = .ok c5Ups2
      ∧ applySet c5Gina (hashStep c5Ups2) = some c5G2
      ∧ c5DB.users.any
          (fun v => !(v._id == "1111111111111111111111aa") && v.username == c5G2.username) = false
      ∧ c5DB.users.any
          (fun v => !(v._id == "1111111111111111111111aa") && v.email == c5G2.email) = true)
    ∧ createUser c5DB c5P1
        = .error { message := "username must be unique", status := some 409 }
    ∧ createUser c5DB c5P2
        = .error { message := "email must be unique", status := some 409 }
    ∧ updateUser c5DB "1111111111111111111111aa" c5Ups1
        = .error { message := "username must be unique", status := some 409 }
    ∧ updateUser c5DB "1111111111111111111111aa" c5Ups2
        = .error { message := "email must be unique", status := some 409 } :=
  ⟨⟨by rfl, by decide, by rfl, by decide, by decide, by decide, by decide,
    by rfl, by decide, by decide, by rfl, by decide, by decide, by decide⟩,
   c5_unique_collision_conflict c5DB c5P1 c5P2 "1111111111111111111111aa"
     c5Ups1 c5Ups2 c5Ups1 c5Ups2 c5Gina c5G1 c5G2 none none
     (by decide) (by decide) (by decide) (by rfl) (by decide)
     (by decide) (by decide) (by decide) (by rfl) (by decide)
     (by decide) (by decide) (by decide)
     (by rfl) (by decide) (by decide)
     (by rfl) (by decide) (by decide) (by decide)⟩

/-! ### Claim C3 -/

/-- The normalised page and limit are always positive when the
defaults are. -/
theorem toInt_pos (v : Option String) (d : Nat) (hd : 0 < d) : 0 < toInt v d := by
  unfold toInt
  cases v with
  | none => exact hd
  | some s =>
    dsimp only
    cases hp : parseIntJS s with
    | none => exact hd
    | some n =>
      dsimp only
      split
      · exact hd
      · rename_i hn
        omega

/-- Store for the C3 counterexample. -/
def c3DB : DB := { users := [], roles := [], nextId := 0 }

/-- C3 counterexample: `page` supplied as the empty string is a
supplied value, yet the result is not the pagination envelope (the
source tests `page || limit` by JavaScript truthiness, and the empty
string is falsy). -/
theorem c3_counterexample_empty_string_page :
    (getAllUsers c3DB (some "") none none none).isPaged = false := by decide

/-- C3 (amended): whenever either page or limit is supplied and truthy
(non-empty), the result is the envelope with page defaulting to 1 and
limit to 10, non-positive or non-numeric values falling back to the
defaults, total the count of matching documents, pages the ceiling of
total/limit, and items.length at most limit; when both are absent or
falsy the result is the full ordered (newest createdAt first)
sequence, no envelope.  Stated for both getAllRoles and getAllUsers. -/
theorem c3_pagination_contract (db : DB) (name inc page limit un fn : Option String)
    (s : String) (n : Int) (d : Nat) :
    (truthy page = false → truthy limit = false →
      ((getAllRoles db name inc page limit).isPaged = false
        ∧ List.Perm (getAllRoles db name inc page limit).itemsOf
            (db.roles.filter (roleQuery name inc))
        ∧ List.Pairwise (fun a b => Role.createdAt b ≤ Role.createdAt a)
            (getAllRoles db name inc page limit).itemsOf
        ∧ (getAllUsers db page limit un fn).isPaged = false
        ∧ List.Perm (getAllUsers db page limit un fn).itemsOf
            ((db.users.filter (usersQuery un fn)).map (fun u => sanitize (populate db.roles u)))
        ∧ List.Pairwise (fun a b => UserOut.createdAt b ≤ UserOut.createdAt a)
            (getAllUsers db page limit un fn).itemsOf))
    ∧ ((truthy page = true ∨ truthy limit = true) →
      ((getAllRoles db name inc page limit).isPaged = true
        ∧ (getAllRoles db name inc page limit).pageOf = toInt page 1
        ∧ (getAllRoles db name inc page limit).limitOf = toInt limit 10
        ∧ (getAllRoles db name inc page limit).totalOf
            = (db.roles.filter (roleQuery name inc)).length
        ∧ (getAllRoles db name inc page limit).itemsOf.length
            ≤ (getAllRoles db name inc page limit).limitOf
        ∧ (getAllRoles db name inc page limit).totalOf
            ≤ (getAllRoles db name inc page limit).pagesOf
              * (getAllRoles db name inc page limit).limitOf
        ∧ (getAllRoles db name inc page limit).pagesOf
              * (getAllRoles db name inc page limit).limitOf
            < (getAllRoles db name inc page limit).totalOf
              + (getAllRoles db name inc page limit).limitOf
        ∧ (getAllUsers db page limit un fn).isPaged = true
        ∧ (getAllUsers db page limit un fn).pageOf = toInt page 1
        ∧ (getAllUsers db page limit un fn).limitOf = toInt limit 10
        ∧ (getAllUsers db page limit un fn).totalOf
            = (db.users.filter (usersQuery un fn)).length
        ∧ (getAllUsers db page limit un fn).itemsOf.length
            ≤ (getAllUsers db page limit un fn).limitOf
        ∧ (getAllUsers db page limit un fn).totalOf
            ≤ (getAllUsers db page limit un fn).pagesOf
              * (getAllUsers db page limit un fn).limitOf
        ∧ (getAllUsers db page limit un fn).pagesOf
              * (getAllUsers db page limit un fn).limitOf
            < (getAllUsers db page limit un fn).totalOf
              + (getAllUsers db page limit un fn).limitOf))
    ∧ (toInt none d = d
        ∧ (parseIntJS s = none → toInt (some s) d = d)
        ∧ (parseIntJS s = some n → n ≤ 0 → toInt (some s) d = d)
        ∧ (parseIntJS s = some n → 0 < n → toInt (some s) d = n.toNat)
        ∧ 1 ≤ toInt page 1 ∧ 1 ≤ toInt limit 10) := by
  refine ⟨?_, ?_, ?_, ?_, ?_, ?_, ?_, ?_⟩
  case refine_1 =>
    intro h1 h2
    have hc : (truthy page || truthy limit) = false := by simp [h1, h2]
    unfold getAllRoles getAllUsers
    simp only [hc, Bool.false_eq_true, if_false]
    refine ⟨rfl, ?_, ?_, rfl, ?_, ?_⟩
    · exact perm_sortDesc Role.createdAt (db.roles.filter (roleQuery name inc))
    · exact pairwise_sortDesc Role.createdAt (db.roles.filter (roleQuery name inc))
    · exact (perm_sortDesc User.createdAt (db.users.filter (usersQuery un fn))).map _
    · exact (pairwise_sortDesc User.createdAt (db.users.filter (usersQuery un fn))).map _
        (fun a b h => h)
  case refine_2 =>
    intro h
    have hc : (truthy page || truthy limit) = true := by
      rcases h with h | h <;> simp [h]
    have hl : 0 < toInt limit 10 := toInt_pos limit 10 (by omega)
    unfold getAllRoles getAllUsers rolesPagedResult usersPagedResult
    simp only [hc, if_true]
    have hceil := ceilDivNat_spec
      (sortDesc Role.createdAt (db.roles.filter (roleQuery name inc))).length
      (toInt limit 10) hl
    have hceilU := ceilDivNat_spec
      (sortDesc User.createdAt (db.users.filter (usersQuery un fn))).length
      (toInt limit 10) hl
    refine ⟨rfl, rfl, rfl, ?_, ?_, ?_, ?_, rfl, rfl, rfl, ?_, ?_, ?_, ?_⟩
    · exact length_sortDesc ..
    · show (pageWindow (toInt page 1) (toInt limit 10) _).length ≤ toInt limit 10
      unfold pageWindow
      rw [List.length_take]
      exact Nat.min_le_left ..
    · show (sortDesc Role.createdAt (db.roles.filter (roleQuery name inc))).length
        ≤ ceilDivNat (sortDesc Role.createdAt (db.roles.filter (roleQuery name inc))).length
            (toInt limit 10) * toInt limit 10
      exact hceil.1
    · exact hceil.2
    · exact length_sortDesc ..
    · show ((pageWindow (toInt page 1) (toInt limit 10) _).map _).length ≤ toInt limit 10
      rw [List.length_map]
      unfold pageWindow
      rw [List.length_take]
      exact Nat.min_le_left ..
    · show (sortDesc User.createdAt (db.users.filter (usersQuery un fn))).length
        ≤ ceilDivNat (sortDesc User.createdAt (db.users.filter (usersQuery un fn))).length
            (toInt limit 10) * toInt limit 10
      exact hceilU.1
    · exact hceilU.2
  case refine_3 => rfl
  case refine_4 =>
    intro h
    unfold toInt
    dsimp only
    rw [h]
  case refine_5 =>
    intro h hn
    unfold toInt
    dsimp only
    rw [h]
    dsimp only
    rw [if_pos hn]
  case refine_6 =>
    intro h hn
    unfold toInt
    dsimp only
    rw [h]
    dsimp only
    rw [if_neg (by omega)]
  case refine_7 => exact toInt_pos page 1 (by omega)
  case refine_8 => exact toInt_pos limit 10 (by omega)

/-- Witness for C3 at a concrete store: a truthy page yields the
envelope and absent paging yields the bare sequence. -/
theorem c3_pagination_contract_witness :
    ((getAllRoles c3DB none none (some "2") (some "5")).isPaged = true
      ∧ truthy (some "2") = true)
    ∧ ((getAllRoles c3DB none none none none).isPaged = false
      ∧ truthy (none : Option String) = false) :=
  ⟨⟨((c3_pagination_contract c3DB none none (some "2") (some "5") none none "x" 0 1).2.1
      (Or.inl (by decide))).1, by decide⟩,
   ⟨((c3_pagination_contract c3DB none none none none none none "x" 0 1).1
      (by decide) (by decide)).1, by decide⟩⟩

/-! ### Claim C4 -/

/-- C4: for a fixed store, pages = ceil(T/L) as reported by the
envelope, and concatenating the items of pages 1..pages (each queried
with limit L) reproduces the unpaginated ordered result, with no
duplicates and no omissions — for both getAllRoles and getAllUsers.
The page numbers are supplied as any strings that normalise to
1..pages. -/
theorem c4_pages_partition (db : DB) (name inc un fn : Option String)
    (l : Nat) (ls : String) (ps : Nat → String)
    (hl : 0 < l) (hls : truthy (some ls) = true) (hlv : toInt (some ls) 10 = l)
    (hps : ∀ i, i ≤ ceilDivNat (db.roles.filter (roleQuery name inc)).length l
                  + ceilDivNat (db.users.filter (usersQuery un fn)).length l →
        1 ≤ i → (truthy (some (ps i)) = true ∧ toInt (some (ps i)) 1 = i)) :
    (getAllRoles db name inc none (some ls)).pagesOf
        = ceilDivNat (db.roles.filter (roleQuery name inc)).length l
    ∧ ((List.range (ceilDivNat (db.roles.filter (roleQuery name inc)).length l)).map
        (fun i => (getAllRoles db name inc (some (ps (i+1))) (some ls)).itemsOf)).flatten
        = (getAllRoles db name inc none none).itemsOf
    ∧ (getAllUsers db none (some ls) un fn).pagesOf
        = ceilDivNat (db.users.filter (usersQuery un fn)).length l
    ∧ ((List.range (ceilDivNat (db.users.filter (usersQuery un fn)).length l)).map
        (fun i => (getAllUsers db (some (ps (i+1))) (some ls) un fn).itemsOf)).flatten
        = (getAllUsers db none none un fn).itemsOf := by
  refine ⟨?_, ?_, ?_, ?_⟩
  · unfold getAllRoles
    rw [show (truthy (none : Option String) || truthy (some ls)) = true by rw [hls]; rfl,
        if_pos rfl]
    unfold rolesPagedResult
    rw [hlv]
    show ceilDivNat (sortDesc Role.createdAt (db.roles.filter (roleQuery name inc))).length l = _
    rw [length_sortDesc]
  · have hitems : ∀ i ∈ List.range (ceilDivNat (db.roles.filter (roleQuery name inc)).length l),
        (getAllRoles db name inc (some (ps (i+1))) (some ls)).itemsOf
          = pageWindow (i+1) l (sortDesc Role.createdAt (db.roles.filter (roleQuery name inc))) := by
      intro i hi
      rw [List.mem_range] at hi
      obtain ⟨ht, hv⟩ := hps (i+1) (by omega) (by omega)
      unfold getAllRoles
      rw [show (truthy (some (ps (i+1))) || truthy (some ls)) = true by rw [ht]; rfl,
          if_pos rfl]
      unfold rolesPagedResult
      rw [hv, hlv]
      rfl
    rw [List.map_congr_left hitems]
    rw [show (getAllRoles db name inc none none).itemsOf
        = sortDesc Role.createdAt (db.roles.filter (roleQuery name inc)) from rfl]
    have hj := join_pageWindows l hl (sortDesc Role.createdAt (db.roles.filter (roleQuery name inc)))
    rw [length_sortDesc] at hj
    exact hj
  · unfold getAllUsers
    rw [show (truthy (none : Option String) || truthy (some ls)) = true by rw [hls]; rfl,
        if_pos rfl]
    unfold usersPagedResult
    rw [hlv]
    show ceilDivNat (sortDesc User.createdAt (db.users.filter (usersQuery un fn))).length l = _
    rw [length_sortDesc]
  · have hitems : ∀ i ∈ List.range (ceilDivNat (db.users.filter (usersQuery un fn)).length l),
        (getAllUsers db (some (ps (i+1))) (some ls) un fn).itemsOf
          = (pageWindow (i+1) l (sortDesc User.createdAt (db.users.filter (usersQuery un fn)))).map
              (fun u => sanitize (populate db.roles u)) := by
      intro i hi
      rw [List.mem_range] at hi
      obtain ⟨ht, hv⟩ := hps (i+1) (by omega) (by omega)
      unfold getAllUsers
      rw [show (truthy (some (ps (i+1))) || truthy (some ls)) = true by rw [ht]; rfl,
          if_pos rfl]
      unfold usersPagedResult
      rw [hv, hlv]
      rfl
    rw [List.map_congr_left hitems]
    rw [show (getAllUsers db none none un fn).itemsOf
        = (sortDesc User.createdAt (db.users.filter (usersQuery un fn))).map
            (fun u => sanitize (populate db.roles u)) from rfl]
    rw [show (List.range (ceilDivNat (db.users.filter (usersQuery un fn)).length l)).map
          (fun i => (pageWindow (i+1) l
              (sortDesc User.createdAt (db.users.filter (usersQuery un fn)))).map
              (fun u => sanitize (populate db.roles u)))
        = ((List.range (ceilDivNat (db.users.filter (usersQuery un fn)).length l)).map
            (fun i => pageWindow (i+1) l
              (sortDesc User.createdAt (db.users.filter (usersQuery un fn))))).map
            (List.map (fun u => sanitize (populate db.roles u))) from by
          rw [List.map_map]; rfl]
    rw [← List.map_flatten]
    have hj := join_pageWindows l hl (sortDesc User.createdAt (db.users.filter (usersQuery un fn)))
    rw [length_sortDesc] at hj
    rw [hj]

/-- Roles for the C4 witness. -/
def c4Role1 : Role :=
  { _id := "111111111111111111111111", name := "r1", isDelete := false, createdAt := 1 }

/-- Roles for the C4 witness. -/
def c4Role2 : Role :=
  { _id := "222222222222222222222222", name := "r2", isDelete := false, createdAt := 2 }

/-- Roles for the C4 witness. -/
def c4Role3 : Role :=
  { _id := "333333333333333333333333", name := "r3", isDelete := false, createdAt := 3 }

/-- Store for the C4 witness: three roles, limit 2, hence two pages. -/
def c4DB : DB := { users := [], roles := [c4Role1, c4Role2, c4Role3], nextId := 0 }

/-- Page-number strings for the C4 witness. -/
def c4PS : Nat → String := fun i => Nat.repr i

/-- Witness for C4 at a concrete store: the hypotheses hold by
computation and pages 1..2 with limit 2 concatenate to the full
ordered role list. -/
theorem c4_pages_partition_witness :
    ((0 : Nat) < 2 ∧ truthy (some "2") = true ∧ toInt (some "2") 10 = 2
      ∧ (∀ i, i ≤ ceilDivNat (c4DB.roles.filter (roleQuery none none)).length 2
                  + ceilDivNat (c4DB.users.filter (usersQuery none none)).length 2 →
          1 ≤ i → (truthy (some (c4PS i)) = true ∧ toInt (some (c4PS i)) 1 = i)))
    ∧ (getAllRoles c4DB none none none (some "2")).pagesOf
        = ceilDivNat (c4DB.roles.filter (roleQuery none none)).length 2
    ∧ ((List.range (ceilDivNat (c4DB.roles.filter (roleQuery none none)).length 2)).map
        (fun i => (getAllRoles c4DB none none (some (c4PS (i+1))) (some "2")).itemsOf)).flatten
        = (getAllRoles c4DB none none none none).itemsOf := by
  have h := c4_pages_partition c4DB none none none none 2 "2" c4PS
    (by decide) (by decide) (by decide) (by decide)
  exact ⟨⟨by decide, by decide, by decide, by decide⟩, h.1, h.2.1⟩

/-! ### Claim C9 -/

/-- Formalisation of the specification's words for C9: the subject
contains the supplied filter string as a case-insensitive substring. -/
def containsSubCI (pat s : String) : Prop :=
  ∃ a b, (toLowerJS s).toList = a ++ (toLowerJS pat).toList ++ b

/-- Store for the C9 counterexample: one role whose name has no '.'
in it. -/
def c9Role : Role :=
  { _id := "444444444444444444444444", name := "ab", isDelete := false, createdAt := 1 }

/-- Store for the C9 counterexample. -/
def c9DB : DB := { users := [], roles := [c9Role], nextId := 0 }

/-- C9 counterexample: filtering roles by the string "." selects the
role named "ab" (the dot is a regex metacharacter matching any
character), although "ab" does not contain "." as a substring — so
the filters are not substring filters for every filter string. -/
theorem c9_counterexample_dot_is_metachar :
    ((getAllRoles c9DB (some ".") none none none).itemsOf.map Role.name = ["ab"])
    ∧ ¬containsSubCI "." "ab" := by
  constructor
  · decide
  · rintro ⟨a, b, hab⟩
    have h1 : (toLowerJS ".").toList = ['.'] := by decide
    rw [h1] at hab
    have hdot : '.' ∈ (toLowerJS "ab").toList := by
      rw [hab]
      simp
    revert hdot
    decide

/-- Lowercasing keeps a character outside the regex metacharacters. -/
theorem metaFreeChar_toLower (c : Char) (h : metaFreeChar c = true) :
    metaFreeChar c.toLower = true := by
  unfold Char.toLower
  dsimp only
  split
  · rename_i hn
    obtain ⟨h1, h2⟩ := hn
    set n := c.toNat with hdef
    interval_cases n <;> decide
  · exact h

/-- Lowercasing keeps a pattern metacharacter-free. -/
theorem lowerList_metaFree (p : List Char) (hp : p.all metaFreeChar = true) :
    (p.map Char.toLower).all metaFreeChar = true := by
  rw [List.all_eq_true] at hp ⊢
  intro x hx
  rcases List.mem_map.mp hx with ⟨c, hc, rfl⟩
  exact metaFreeChar_toLower c (hp c hc)

/-- C9 (amended): the filters interpret the supplied string as a
case-insensitive regular expression; when the string is free of regex
metacharacters this coincides with case-insensitive substring
selection: the regex test equals substring containment, and the
listing operations select exactly the records whose field contains the
filter string case-insensitively. -/
theorem c9_amended_metafree_filters_are_substring (pat : String)
    (hm : pat.toList.all metaFreeChar = true) :
    (∀ s, regexTestI pat s = true ↔ containsSubCI pat s)
    ∧ (∀ (db : DB) (r : Role), r ∈ (getAllRoles db (some pat) none none none).itemsOf ↔
        (r ∈ db.roles ∧ r.isDelete = false ∧ containsSubCI pat r.name))
    ∧ (∀ (db : DB) (o : UserOut), o ∈ (getAllUsers db none none (some pat) none).itemsOf ↔
        (∃ u, u ∈ db.users ∧ u.isDelete = false ∧ containsSubCI pat u.username
          ∧ o = sanitize (populate db.roles u)))
    ∧ (∀ (db : DB) (o : UserOut), o ∈ (getAllUsers db none none none (some pat)).itemsOf ↔
        (∃ u, u ∈ db.users ∧ u.isDelete = false ∧ containsSubCI pat u.fullName
          ∧ o = sanitize (populate db.roles u))) := by
  have hmatch : ∀ s, regexTestI pat s = true ↔ containsSubCI pat s := by
    intro s
    unfold regexTestI containsSubCI
    exact matchFrom_metaFree (toLowerJS pat).toList (toLowerJS s).toList
      (lowerList_metaFree pat.toList hm)
  have hquery : ∀ s, (if truthy (some pat) then regexTestI pat s else true) = true
      ↔ containsSubCI pat s := by
    intro s
    by_cases hp : truthy (some pat) = true
    · rw [if_pos hp]
      exact hmatch s
    · rw [if_neg (by simp [hp])]
      have hpe : pat = "" := by
        unfold truthy at hp
        simpa using hp
      subst hpe
      constructor
      · intro _
        exact ⟨[], (toLowerJS s).toList, by simp [toLowerJS]⟩
      · intro _
        rfl
  refine ⟨hmatch, ?_, ?_, ?_⟩
  · intro db r
    unfold getAllRoles
    rw [show (truthy (none : Option String) || truthy (none : Option String)) = false from rfl]
    simp only [Bool.false_eq_true, if_false]
    show r ∈ sortDesc Role.createdAt (db.roles.filter (roleQuery (some pat) none)) ↔ _
    rw [mem_sortDesc, List.mem_filter]
    unfold roleQuery
    rw [show ((!truthy (none : Option String)) || (none : Option String) == some "false")
          = true from rfl, if_pos rfl]
    constructor
    · rintro ⟨hmem, hq⟩
      rcases Bool.and_eq_true .. |>.mp hq with ⟨hd, hn⟩
      refine ⟨hmem, by simpa using hd, ?_⟩
      exact (hquery r.name).mp hn
    · rintro ⟨hmem, hd, hsub⟩
      refine ⟨hmem, ?_⟩
      rw [Bool.and_eq_true]
      exact ⟨by simp [hd], (hquery r.name).mpr hsub⟩
  · intro db o
    unfold getAllUsers
    rw [show (truthy (none : Option String) || truthy (none : Option String)) = false from rfl]
    simp only [Bool.false_eq_true, if_false]
    show o ∈ (sortDesc User.createdAt (db.users.filter (usersQuery (some pat) none))).map
        (fun u => sanitize (populate db.roles u)) ↔ _
    rw [List.mem_map]
    constructor
    · rintro ⟨u, hu, rfl⟩
      rw [mem_sortDesc, List.mem_filter] at hu
      rcases hu with ⟨hmem, hq⟩
      unfold usersQuery at hq
      rcases Bool.and_eq_true .. |>.mp hq with ⟨hq1, _⟩
      rcases Bool.and_eq_true .. |>.mp hq1 with ⟨hd, hn⟩
      exact ⟨u, hmem, by simpa using hd, (hquery u.username).mp hn, rfl⟩
    · rintro ⟨u, hmem, hd, hsub, rfl⟩
      refine ⟨u, ?_, rfl⟩
      rw [mem_sortDesc, List.mem_filter]
      refine ⟨hmem, ?_⟩
      unfold usersQuery
      rw [Bool.and_eq_true, Bool.and_eq_true]
      exact ⟨⟨by simp [hd], (hquery u.username).mpr hsub⟩, rfl⟩
  · intro db o
    unfold getAllUsers
    rw [show (truthy (none : Option String) || truthy (none : Option String)) = false from rfl]
    simp only [Bool.false_eq_true, if_false]
    show o ∈ (sortDesc User.createdAt (db.users.filter (usersQuery none (some pat)))).map
        (fun u => sanitize (populate db.roles u)) ↔ _
    rw [List.mem_map]
    constructor
    · rintro ⟨u, hu, rfl⟩
      rw [mem_sortDesc, List.mem_filter] at hu
      rcases hu with ⟨hmem, hq⟩
      unfold usersQuery at hq
      rcases Bool.and_eq_true .. |>.mp hq with ⟨hq1, hn⟩
      rcases Bool.and_eq_true .. |>.mp hq1 with ⟨hd, _⟩
      exact ⟨u, hmem, by simpa using hd, (hquery u.fullName).mp hn, rfl⟩
    · rintro ⟨u, hmem, hd, hsub, rfl⟩
      refine ⟨u, ?_, rfl⟩
      rw [mem_sortDesc, List.mem_filter]
      refine ⟨hmem, ?_⟩
      unfold usersQuery
      rw [Bool.and_eq_true, Bool.and_eq_true]
      exact ⟨⟨by simp [hd], rfl⟩, (hquery u.fullName).mpr hsub⟩

/-- Witness for C9's amended theorem: the metacharacter-free filter
"b" selects the role named "ab" and the regex test agrees with
substring containment on a concrete subject. -/
theorem c9_amended_metafree_filters_witness :
    ("b".toList.all metaFreeChar = true)
    ∧ (regexTestI "b" "ABC" = true ↔ containsSubCI "b" "ABC")
    ∧ (c9Role ∈ (getAllRoles c9DB (some "b") none none none).itemsOf ↔
        (c9Role ∈ c9DB.roles ∧ c9Role.isDelete = false ∧ containsSubCI "b" c9Role.name)) :=
  ⟨by decide,
   (c9_amended_metafree_filters_are_substring "b" (by decide)).1 "ABC",
   (c9_amended_metafree_filters_are_substring "b" (by decide)).2.1 c9DB c9Role⟩
